import Mathlib

/-!
Verification of `scripts/fetch_videos.py`.

The script queries the YouTube Data API for a channel's uploads, filters out
short-form clips (duration ≤ 60 seconds), and writes a featured video plus a
bounded history list to a JSON file.  This file gives a shallow embedding of
the script's pure logic:

* `parse_duration_seconds` embeds the Python function of the same name, which
  applies the anchored regular expression `PT(?:(\d+)H)?(?:(\d+)M)?(?:(\d+)S)?`
  and sums the captured components.  Since each optional group is greedy and
  everything after the literal `PT` is optional, the regex matches exactly when
  the string starts with `PT`; an optional group `(?:(\d+)LETTER)?` matches
  exactly when the maximal digit run at the current position is nonempty and is
  followed immediately by the component letter (shortening the greedy `\d+`
  can never help, because each shortened position still points at a digit).
  `read_component` embeds one such group.  The pattern is a `str` pattern used
  without `re.ASCII`, so `\d` means any Unicode decimal digit (category Nd) and
  `int` maps each digit to its decimal value: `pyDigit` / `pyDigitVal` embed
  this via the Nd run-start table `ndRangeStarts`.
* `get_video_durations` embeds the dict built from the videos-response
  (id, rawDuration) pairs by successive dict assignments (`dict_insert`),
  preserving Python's insertion order and last-wins overwrite on a duplicated
  id.
* `selectLoop` embeds the `for item in items:` loop of `main` (lines 90-116):
  skip when `durations.get(video_id, 0) <= 60`, otherwise append the built
  video dict, and break once `len(videos) >= maxVideos + 1`.  The module-level
  constant `MAX_VIDEOS` is passed as the parameter `maxVideos` (modelling a
  global by a parameter); the short-form threshold 60 is the literal from
  line 96.
* Publish timestamps are ISO-8601 UTC strings in the script and compare
  chronologically iff lexicographically; they are embedded as `Nat`.  The
  locale-formatted `date` string (line 103) is cosmetic per the spec and does
  not appear in any claim, so the video record carries the raw timestamp.
* `select_result` / `build_result` embed lines 118-127: an empty filtered list
  means warn-and-return (no write), otherwise `featured = videos[0]`,
  `history = videos[1:]`.
* `fetch_channel_uploads_playlist` embeds lines 66-74: indexing
  `channel_data["items"][0]` raises when the items list is empty; the spec's
  error taxonomy names this condition `NotFoundError`.
-/

/-- Start code points of the Unicode decimal-digit runs (category Nd, Unicode
14.0 as in CPython's database): each run is ten consecutive code points whose
decimal values are 0 through 9 in order.  Python's `\d` (used without
`re.ASCII`) matches exactly these characters, and `int` maps each to its
decimal value. -/
def ndRangeStarts : List Nat :=
  [0x30, 0x660, 0x6F0, 0x7C0, 0x966, 0x9E6, 0xA66, 0xAE6,
   0xB66, 0xBE6, 0xC66, 0xCE6, 0xD66, 0xDE6, 0xE50, 0xED0,
   0xF20, 0x1040, 0x1090, 0x17E0, 0x1810, 0x1946, 0x19D0, 0x1A80,
   0x1A90, 0x1B50, 0x1BB0, 0x1C40, 0x1C50, 0xA620, 0xA8D0, 0xA900,
   0xA9D0, 0xA9F0, 0xAA50, 0xABF0, 0xFF10, 0x104A0, 0x10D30, 0x11066,
   0x110F0, 0x11136, 0x111D0, 0x112F0, 0x11450, 0x114D0, 0x11650, 0x116C0,
   0x11730, 0x118E0, 0x11950, 0x11C50, 0x11D50, 0x11DA0, 0x16A60, 0x16AC0,
   0x16B50, 0x1D7CE, 0x1D7D8, 0x1D7E2, 0x1D7EC, 0x1D7F6, 0x1E140, 0x1E2F0,
   0x1E950, 0x1FBF0]

/-- Python's `\d` on one character: a Unicode decimal digit (category Nd).
This is wider than ASCII `0`-`9`; e.g. the Arabic-Indic digits match. -/
def pyDigit (c : Char) : Bool :=
  ndRangeStarts.any (fun b => decide (b ≤ c.toNat ∧ c.toNat < b + 10))

/-- The decimal value Python's `int` assigns to one Unicode decimal digit:
its offset inside its Nd run (0 for non-digits, which never occur in a
captured group). -/
def pyDigitVal (c : Char) : Nat :=
  match ndRangeStarts.find? (fun b => decide (b ≤ c.toNat ∧ c.toNat < b + 10)) with
  | some b => c.toNat - b
  | none => 0

/-- Value of a run of decimal digit characters, as Python's `int` computes it
on the string captured by a `(\d+)` group (any Unicode decimal digits). -/
def digitsVal (ds : List Char) : Nat :=
  ds.foldl (fun a c => 10 * a + pyDigitVal c) 0

/-- One optional greedy regex group `(?:(\d+)LETTER)?` applied at `cs`:
take the maximal digit run; if it is nonempty and followed by `letter`,
capture it (as its numeric value) and consume through the letter, otherwise
fail and consume nothing. -/
def read_component (letter : Char) (cs : List Char) : Option Nat × List Char :=
  match cs.dropWhile (fun c => pyDigit c) with
  | c :: rest =>
    if cs.takeWhile (fun c => pyDigit c) ≠ [] ∧ c = letter then
      (some (digitsVal (cs.takeWhile (fun c => pyDigit c))), rest)
    else (none, cs)
  | [] => (none, cs)

/-- The three groups of the regex applied in sequence after the literal `PT`,
summed as `hours * 3600 + minutes * 60 + seconds` with missing groups
defaulted to 0 (`int(match.group(i) or 0)`, lines 39-42). -/
def parse_components (rest : List Char) : Nat :=
  (read_component 'H' rest).1.getD 0 * 3600 +
  (read_component 'M' (read_component 'H' rest).2).1.getD 0 * 60 +
  (read_component 'S' (read_component 'M' (read_component 'H' rest).2).2).1.getD 0

/-- Embeds `parse_duration_seconds` (fetch_videos.py lines 31-42):
`re.match(r'PT(?:(\d+)H)?(?:(\d+)M)?(?:(\d+)S)?', s)` fails (returning 0) iff
`s` does not start with `PT`; otherwise the three captured groups, defaulted
to 0, are summed as `hours*3600 + minutes*60 + seconds`.  Total by
construction and `Nat`-valued, hence never negative. -/
def parse_duration_seconds (s : String) : Nat :=
  match s.data with
  | c1 :: c2 :: rest => if c1 = 'P' ∧ c2 = 'T' then parse_components rest else 0
  | _ => 0

/-- One Python dict assignment `d[k] = v` on an insertion-ordered dict encoded
as an association list with distinct keys: overwrite the existing entry in
place, or append a new one — so a duplicate key is last-wins. -/
def dict_insert (k : String) (v : Nat) : List (String × Nat) → List (String × Nat)
  | [] => [(k, v)]
  | (k', v') :: rest =>
    if k' = k then (k', v) :: rest else (k', v') :: dict_insert k v rest

/-- Embeds `get_video_durations` (lines 45-61) applied to the decoded videos
response: starting from the empty dict, each response item performs
`durations[vid_id] = parse_duration_seconds(duration)`, with Python's
last-wins dict semantics on a duplicated id. -/
def get_video_durations (respItems : List (String × String)) : List (String × Nat) :=
  respItems.foldl (fun d p => dict_insert p.1 (parse_duration_seconds p.2) d) []

/-- One entry of the playlist listing: `snippet.resourceId.videoId`,
`snippet.title`, and `snippet.publishedAt` (the ISO-8601 UTC timestamp,
embedded as a `Nat` that orders the same way). -/
structure RawUploadItem where
  videoId : String
  title : String
  publishedAt : Nat
deriving DecidableEq, Repr

/-- The video dict appended at lines 105-112.  `publishedAt` carries the raw
timestamp; the locale-formatted date string derived from it is cosmetic and
unused by any claim. -/
structure Video where
  id : String
  title : String
  publishedAt : Nat
  duration : Nat
  thumbnail : String
  url : String
deriving DecidableEq, Repr

/-- Embeds `durations.get(video_id, 0)` (line 94). -/
def lookupD (durations : List (String × Nat)) (k : String) : Nat :=
  (durations.lookup k).getD 0

/-- The dict built at lines 105-112 for one playlist item with its looked-up
duration. -/
def mkVideo (item : RawUploadItem) (duration : Nat) : Video :=
  { id := item.videoId
    title := item.title
    publishedAt := item.publishedAt
    duration := duration
    thumbnail := "https://img.youtube.com/vi/" ++ item.videoId ++ "/hqdefault.jpg"
    url := "https://www.youtube.com/watch?v=" ++ item.videoId }

/-- The video built for `item` in the loop body: duration looked up with
default 0. -/
def selectF (durations : List (String × Nat)) (item : RawUploadItem) : Video :=
  mkVideo item (lookupD durations item.videoId)

/-- `# Vídeos en el historial (sin contar el destacado)` — line 21. -/
def MAX_VIDEOS : Nat := 3

/-- Embeds the `for item in items:` loop of `main` (lines 90-116), with the
accumulator `videos`: skip items whose duration (default 0) is ≤ 60, otherwise
append the built video (`selectF` inlines the loop's `duration` binding), and
break as soon as `len(videos) >= maxVideos + 1`. -/
def selectLoop (durations : List (String × Nat)) (maxVideos : Nat) :
    List RawUploadItem → List Video → List Video
  | [], videos => videos
  | item :: rest, videos =>
    if lookupD durations item.videoId ≤ 60 then
      selectLoop durations maxVideos rest videos
    else if maxVideos + 1 ≤ (videos ++ [selectF durations item]).length then
      videos ++ [selectF durations item]
    else
      selectLoop durations maxVideos rest (videos ++ [selectF durations item])

/-- The filtered list `videos` after the loop, starting from `videos = []`
(line 90). -/
def select_videos (items : List RawUploadItem) (durations : List (String × Nat))
    (maxVideos : Nat) : List Video :=
  selectLoop durations maxVideos items []

/-- The JSON payload written at lines 123-127 (minus the `updated` timestamp):
`featured = videos[0]`, `history = videos[1:]`. -/
structure Result where
  featured : Video
  history : List Video
deriving DecidableEq, Repr

/-- Lines 118-127: `none` models the `if not videos: … return` path (warning
logged, nothing written); otherwise the result is built from the head and tail
of the filtered list. -/
def select_result (items : List RawUploadItem) (durations : List (String × Nat))
    (maxVideos : Nat) : Option Result :=
  match select_videos items durations maxVideos with
  | [] => none
  | v :: rest => some { featured := v, history := rest }

/-- `main`'s selection pipeline with the script's constants: threshold 60 and
`MAX_VIDEOS` history entries. -/
def build_result (items : List RawUploadItem) (durations : List (String × Nat)) :
    Option Result :=
  select_result items durations MAX_VIDEOS

/-- All videos appearing in the output: the featured one followed by the
history, or nothing when no file is written. -/
def result_videos : Option Result → List Video
  | none => []
  | some r => r.featured :: r.history

/-- The video identifiers appearing in the output, featured first. -/
def result_ids (o : Option Result) : List String :=
  (result_videos o).map Video.id

/-- The two observable outcomes of `main` after filtering: the warning path
(lines 118-120) or a written result (lines 122-131). -/
inductive RunOutcome where
  | warnedNoVideos : RunOutcome
  | wroteOutput : Result → RunOutcome
deriving DecidableEq, Repr

/-- Which outcome `main` takes for the given fetched items and durations. -/
def main_outcome (items : List RawUploadItem) (durations : List (String × Nat)) :
    RunOutcome :=
  match build_result items durations with
  | none => RunOutcome.warnedNoVideos
  | some r => RunOutcome.wroteOutput r

/-- State of the output file after the run: on the warning path the previous
contents (possibly absent) survive; otherwise the file is overwritten with the
new result. -/
def output_after (prev : Option Result) (items : List RawUploadItem)
    (durations : List (String × Nat)) : Option Result :=
  match build_result items durations with
  | none => prev
  | some r => some r

/-- `contentDetails.relatedPlaylists.uploads` of one channel-response item. -/
structure ChannelItem where
  uploads : String
deriving DecidableEq, Repr

/-- The decoded channel-lookup response: its `items` array.  The API returns
one item per matching channel, so an empty list means no matching record. -/
structure ChannelResponse where
  items : List ChannelItem
deriving DecidableEq, Repr

/-- The spec's error taxonomy for the channel lookup. -/
inductive FetchError where
  | notFound : FetchError
deriving DecidableEq, Repr

/-- Embeds lines 71-74: `channel_data["items"][0]["contentDetails"]
["relatedPlaylists"]["uploads"]`.  Indexing `[0]` on an empty `items` list
raises; the spec names that failure `NotFoundError`. -/
def fetch_channel_uploads_playlist (resp : ChannelResponse) :
    Except FetchError String :=
  match resp.items with
  | [] => Except.error FetchError.notFound
  | it :: _ => Except.ok it.uploads

/-- One optional component of a duration token: absent, or a digit run
followed by its component letter. -/
def comp (letter : Char) : Option (List Char) → List Char
  | none => []
  | some ds => ds ++ [letter]

/-- The numeric value an optional component contributes: 0 when absent. -/
def compVal : Option (List Char) → Nat
  | none => 0
  | some ds => digitsVal ds

/-- A well-formed optional component payload: absent, or a nonempty run of
(Unicode) decimal digits. -/
def goodRunB : Option (List Char) → Bool
  | none => true
  | some [] => false
  | some (d :: ds) => (d :: ds).all (fun c => pyDigit c)

/-- A duration token `PT[<h>H][<m>M][<s>S]` with each component present or
absent. -/
def durToken (ho mo so : Option (List Char)) : String :=
  ⟨'P' :: 'T' :: (comp 'H' ho ++ (comp 'M' mo ++ comp 'S' so))⟩

/-- Input items for the end-to-end example of the spec (§8): four uploads,
newest first. -/
def exampleItems : List RawUploadItem :=
  [⟨"A", "Video A", 40⟩, ⟨"B", "Video B", 30⟩, ⟨"C", "Video C", 20⟩,
   ⟨"D", "Video D", 10⟩]

/-- Durations for the end-to-end example: A and D are short-form. -/
def exampleDurations : List (String × Nat) :=
  [("A", 30), ("B", 90), ("C", 120), ("D", 45)]

/-! ## Helper lemmas about the duration parser -/

theorem goodRunB_some {ds : List Char} (h : goodRunB (some ds) = true) :
    ds ≠ [] ∧ ∀ c ∈ ds, pyDigit c = true := by
  cases ds with
  | nil => simp [goodRunB] at h
  | cons d ds =>
    refine ⟨by simp, ?_⟩
    simpa [goodRunB, List.all_eq_true] using h

theorem takeWhile_digit_run (ds : List Char) (c : Char) (rest : List Char)
    (hds : ∀ x ∈ ds, pyDigit x = true) (hc : pyDigit c = false) :
    (ds ++ c :: rest).takeWhile (fun x => pyDigit x) = ds := by
  induction ds with
  | nil => simp [List.takeWhile_cons, hc]
  | cons d ds ih =>
    have hd : pyDigit d = true := hds d (by simp)
    simp only [List.cons_append, List.takeWhile_cons, hd, if_true]
    rw [ih (fun x hx => hds x (by simp [hx]))]

theorem dropWhile_digit_run (ds : List Char) (c : Char) (rest : List Char)
    (hds : ∀ x ∈ ds, pyDigit x = true) (hc : pyDigit c = false) :
    (ds ++ c :: rest).dropWhile (fun x => pyDigit x) = c :: rest := by
  induction ds with
  | nil => simp [List.dropWhile_cons, hc]
  | cons d ds ih =>
    have hd : pyDigit d = true := hds d (by simp)
    simp only [List.cons_append, List.dropWhile_cons, hd, if_true]
    exact ih (fun x hx => hds x (by simp [hx]))

theorem read_component_hit (letter : Char) (ds rest : List Char)
    (hne : ds ≠ []) (hds : ∀ x ∈ ds, pyDigit x = true)
    (hl : pyDigit letter = false) :
    read_component letter (ds ++ letter :: rest) = (some (digitsVal ds), rest) := by
  unfold read_component
  rw [takeWhile_digit_run ds letter rest hds hl, dropWhile_digit_run ds letter rest hds hl]
  simp [hne]

theorem read_component_miss (letter : Char) (ds : List Char) (c : Char) (rest : List Char)
    (hds : ∀ x ∈ ds, pyDigit x = true) (hc : pyDigit c = false) (hne : c ≠ letter) :
    read_component letter (ds ++ c :: rest) = (none, ds ++ c :: rest) := by
  unfold read_component
  rw [dropWhile_digit_run ds c rest hds hc]
  simp [hne]

theorem read_component_nil (letter : Char) : read_component letter [] = (none, []) := rfl

theorem read_comp_at (letter : Char) (o : Option (List Char)) (tail : List Char)
    (hgood : goodRunB o = true) (hl : pyDigit letter = false)
    (ht : tail = [] ∨ ∃ ds c t, tail = ds ++ c :: t ∧ (∀ x ∈ ds, pyDigit x = true) ∧
      pyDigit c = false ∧ c ≠ letter) :
    read_component letter (comp letter o ++ tail) = (Option.map digitsVal o, tail) := by
  cases o with
  | some ds =>
    obtain ⟨hne, hds⟩ := goodRunB_some hgood
    have : comp letter (some ds) ++ tail = ds ++ letter :: tail := by simp [comp]
    rw [this, read_component_hit letter ds tail hne hds hl]
    rfl
  | none =>
    simp only [comp, List.nil_append, Option.map_none']
    rcases ht with rfl | ⟨ds, c, t, rfl, hds, hc, hcl⟩
    · exact read_component_nil letter
    · exact read_component_miss letter ds c t hds hc hcl

theorem compVal_map (o : Option (List Char)) :
    (Option.map digitsVal o).getD 0 = compVal o := by
  cases o <;> rfl

theorem parse_components_token (ho mo so : Option (List Char))
    (hh : goodRunB ho = true) (hm : goodRunB mo = true) (hs : goodRunB so = true) :
    parse_components (comp 'H' ho ++ (comp 'M' mo ++ comp 'S' so)) =
      compVal ho * 3600 + compVal mo * 60 + compVal so := by
  have eS : read_component 'S' (comp 'S' so) = (Option.map digitsVal so, []) := by
    have := read_comp_at 'S' so [] hs (by decide) (Or.inl rfl)
    simpa using this
  have eM : read_component 'M' (comp 'M' mo ++ comp 'S' so) =
      (Option.map digitsVal mo, comp 'S' so) := by
    apply read_comp_at 'M' mo _ hm (by decide)
    rcases so with _ | ss
    · exact Or.inl (by simp [comp])
    · exact Or.inr ⟨ss, 'S', [], by simp [comp], (goodRunB_some hs).2, by decide, by decide⟩
  have eH : read_component 'H' (comp 'H' ho ++ (comp 'M' mo ++ comp 'S' so)) =
      (Option.map digitsVal ho, comp 'M' mo ++ comp 'S' so) := by
    apply read_comp_at 'H' ho _ hh (by decide)
    rcases mo with _ | ms
    · rcases so with _ | ss
      · exact Or.inl (by simp [comp])
      · exact Or.inr ⟨ss, 'S', [], by simp [comp], (goodRunB_some hs).2, by decide, by decide⟩
    · exact Or.inr ⟨ms, 'M', comp 'S' so, by simp [comp], (goodRunB_some hm).2, by decide,
        by decide⟩
  unfold parse_components
  rw [eH]
  simp only []
  rw [eM]
  simp only []
  rw [eS]
  simp [compVal_map]

theorem parse_mk_PT (rest : List Char) :
    parse_duration_seconds ⟨'P' :: 'T' :: rest⟩ = parse_components rest := by
  simp [parse_duration_seconds]

theorem read_component_head_not_digit (letter c : Char) (cs : List Char)
    (hc : pyDigit c = false) :
    read_component letter (c :: cs) = (none, c :: cs) := by
  simp [read_component, List.dropWhile_cons, List.takeWhile_cons, hc]

theorem parse_PT_malformed (c : Char) (cs : List Char) (hc : pyDigit c = false) :
    parse_duration_seconds ⟨'P' :: 'T' :: c :: cs⟩ = 0 := by
  rw [parse_mk_PT]
  unfold parse_components
  rw [read_component_head_not_digit 'H' c cs hc]
  simp only []
  rw [read_component_head_not_digit 'M' c cs hc]
  simp only []
  rw [read_component_head_not_digit 'S' c cs hc]
  simp

theorem parse_non_pt (s : String) (h : s.data.take 2 ≠ ['P', 'T']) :
    parse_duration_seconds s = 0 := by
  obtain ⟨l⟩ := s
  rcases l with _ | ⟨c1, _ | ⟨c2, rest⟩⟩
  · rfl
  · rfl
  · have hne : ¬(c1 = 'P' ∧ c2 = 'T') := by
      rintro ⟨rfl, rfl⟩
      exact h (by simp)
    simp [parse_duration_seconds, hne]

theorem dict_insert_lookup (k : String) (v : Nat) (i : String) :
    ∀ d : List (String × Nat),
      (dict_insert k v d).lookup i = if i = k then some v else d.lookup i := by
  intro d
  induction d with
  | nil =>
    by_cases h : i = k
    · have hb : (i == k) = true := by simp [h]
      simp [dict_insert, List.lookup, hb, h]
    · have hb : (i == k) = false := by simp [h]
      simp [dict_insert, List.lookup, hb, h]
  | cons p rest ih =>
    obtain ⟨k', v'⟩ := p
    by_cases hk : k' = k
    · subst hk
      by_cases h : i = k'
      · have hb : (i == k') = true := by simp [h]
        simp [dict_insert, List.lookup, hb, h]
      · have hb : (i == k') = false := by simp [h]
        simp [dict_insert, List.lookup, hb, h]
    · by_cases h : i = k'
      · have hb : (i == k') = true := by simp [h]
        have hik : ¬ i = k := fun he => hk (h.symm.trans he)
        simp [dict_insert, List.lookup, hk, hb, hik]
      · have hb : (i == k') = false := by simp [h]
        simp [dict_insert, List.lookup, hk, hb, ih]

theorem gvd_fold_zero (i : String) :
    ∀ (resp : List (String × String)) (d : List (String × Nat)),
      (∀ p ∈ resp, p.1 = i → parse_duration_seconds p.2 = 0) →
      lookupD d i = 0 →
      lookupD (resp.foldl
        (fun d p => dict_insert p.1 (parse_duration_seconds p.2) d) d) i = 0 := by
  intro resp
  induction resp with
  | nil => intro d _ hd; exact hd
  | cons p resp ih =>
    intro d h hd
    simp only [List.foldl_cons]
    apply ih _ (fun q hq => h q (by simp [hq]))
    unfold lookupD
    rw [dict_insert_lookup]
    by_cases hpi : i = p.1
    · rw [if_pos hpi]
      have hz := h p (by simp) hpi.symm
      simp [hz]
    · rw [if_neg hpi]
      exact hd

theorem lookupD_gvd_zero (resp : List (String × String)) (i : String)
    (h : ∀ p ∈ resp, p.1 = i → parse_duration_seconds p.2 = 0) :
    lookupD (get_video_durations resp) i = 0 := by
  unfold get_video_durations
  exact gvd_fold_zero i resp [] h rfl

/-! ## Helper lemmas about the selection loop -/

theorem selectLoop_mem (durations : List (String × Nat)) (maxVideos : Nat) :
    ∀ (items : List RawUploadItem) (acc : List Video) (v : Video),
      v ∈ selectLoop durations maxVideos items acc →
      v ∈ acc ∨ (60 < v.duration ∧ v.duration = lookupD durations v.id) := by
  intro items
  induction items with
  | nil => intro acc v h; exact Or.inl h
  | cons item rest ih =>
    intro acc v h
    simp only [selectLoop] at h
    by_cases hd : lookupD durations item.videoId ≤ 60
    · rw [if_pos hd] at h
      exact ih acc v h
    · rw [if_neg hd] at h
      have hsel : ∀ w : Video, w ∈ acc ++ [selectF durations item] →
          w ∈ acc ∨ (60 < w.duration ∧ w.duration = lookupD durations w.id) := by
        intro w hw
        rcases List.mem_append.1 hw with h1 | h2
        · exact Or.inl h1
        · have : w = selectF durations item := by simpa using h2
          subst this
          exact Or.inr ⟨not_le.mp hd, rfl⟩
      by_cases hl : maxVideos + 1 ≤ (acc ++ [selectF durations item]).length
      · rw [if_pos hl] at h
        exact hsel v h
      · rw [if_neg hl] at h
        rcases ih _ v h with h1 | h2
        · exact hsel v h1
        · exact Or.inr h2

theorem selectLoop_sublist (durations : List (String × Nat)) (maxVideos : Nat) :
    ∀ (items : List RawUploadItem) (acc : List Video),
      ∃ l, selectLoop durations maxVideos items acc = acc ++ l ∧
        l.Sublist (items.map (selectF durations)) := by
  intro items
  induction items with
  | nil => intro acc; exact ⟨[], by simp [selectLoop], List.nil_sublist _⟩
  | cons item rest ih =>
    intro acc
    by_cases hd : lookupD durations item.videoId ≤ 60
    · obtain ⟨l, h1, h2⟩ := ih acc
      refine ⟨l, ?_, ?_⟩
      · simp only [selectLoop, if_pos hd]; exact h1
      · simpa using h2.cons _
    · by_cases hl : maxVideos + 1 ≤ (acc ++ [selectF durations item]).length
      · refine ⟨[selectF durations item], ?_, ?_⟩
        · simp only [selectLoop, if_neg hd, if_pos hl]
        · simp only [List.map_cons]
          exact (List.nil_sublist _).cons₂ (selectF durations item)
      · obtain ⟨l, h1, h2⟩ := ih (acc ++ [selectF durations item])
        refine ⟨selectF durations item :: l, ?_, ?_⟩
        · simp only [selectLoop, if_neg hd, if_neg hl]
          rw [h1]
          simp
        · simpa using h2.cons₂ (selectF durations item)

theorem selectLoop_length (durations : List (String × Nat)) (maxVideos : Nat) :
    ∀ (items : List RawUploadItem) (acc : List Video),
      acc.length ≤ maxVideos →
      (selectLoop durations maxVideos items acc).length ≤ maxVideos + 1 := by
  intro items
  induction items with
  | nil => intro acc h; simpa [selectLoop] using Nat.le_succ_of_le h
  | cons item rest ih =>
    intro acc h
    simp only [selectLoop]
    by_cases hd : lookupD durations item.videoId ≤ 60
    · rw [if_pos hd]; exact ih acc h
    · rw [if_neg hd]
      by_cases hl : maxVideos + 1 ≤ (acc ++ [selectF durations item]).length
      · rw [if_pos hl]
        simpa using Nat.add_le_add_right h 1
      · rw [if_neg hl]
        exact ih _ (Nat.lt_succ_iff.mp (not_le.mp hl))

theorem selectLoop_append_full (durations : List (String × Nat)) (maxVideos : Nat) :
    ∀ (items extra : List RawUploadItem) (acc : List Video),
      acc.length ≤ maxVideos →
      (selectLoop durations maxVideos items acc).length = maxVideos + 1 →
      selectLoop durations maxVideos (items ++ extra) acc =
        selectLoop durations maxVideos items acc := by
  intro items
  induction items with
  | nil =>
    intro extra acc hle hfull
    simp only [selectLoop] at hfull
    exfalso
    omega
  | cons item rest ih =>
    intro extra acc hle hfull
    simp only [selectLoop, List.cons_append] at hfull ⊢
    by_cases hd : lookupD durations item.videoId ≤ 60
    · simp only [if_pos hd] at hfull ⊢
      exact ih extra acc hle hfull
    · simp only [if_neg hd] at hfull ⊢
      by_cases hl : maxVideos + 1 ≤ (acc ++ [selectF durations item]).length
      · simp only [if_pos hl] at hfull ⊢
      · simp only [if_neg hl] at hfull ⊢
        exact ih extra _ (Nat.lt_succ_iff.mp (not_le.mp hl)) hfull

theorem selectLoop_all_short (durations : List (String × Nat)) (maxVideos : Nat) :
    ∀ (items : List RawUploadItem),
      (∀ item ∈ items, lookupD durations item.videoId ≤ 60) →
      ∀ acc, selectLoop durations maxVideos items acc = acc := by
  intro items
  induction items with
  | nil => intro _ acc; rfl
  | cons item rest ih =>
    intro h acc
    have hd : lookupD durations item.videoId ≤ 60 := h item (by simp)
    simp only [selectLoop, if_pos hd]
    exact ih (fun x hx => h x (by simp [hx])) acc

theorem result_videos_select (items : List RawUploadItem)
    (durations : List (String × Nat)) (maxVideos : Nat) :
    result_videos (select_result items durations maxVideos) =
      select_videos items durations maxVideos := by
  cases h : select_videos items durations maxVideos <;>
    simp [select_result, result_videos, h]

/-! ## Helper lemmas about the result -/

theorem select_result_some (items : List RawUploadItem)
    (durations : List (String × Nat)) (maxVideos : Nat) (r : Result)
    (h : select_result items durations maxVideos = some r) :
    select_videos items durations maxVideos = r.featured :: r.history := by
  unfold select_result at h
  cases hs : select_videos items durations maxVideos with
  | nil =>
    rw [hs] at h
    exact Option.noConfusion h
  | cons v rest =>
    rw [hs] at h
    obtain rfl : ({ featured := v, history := rest } : Result) = r := Option.some.inj h
    rfl

/-! ## Claims -/

/-- Claim C1: for every input list, every duration index and every history
bound, every video in the selection pipeline's output — the featured one and
every history entry alike — has duration strictly greater than the 60-second
short-form threshold. -/
theorem output_videos_longform (items : List RawUploadItem)
    (durations : List (String × Nat)) (maxVideos : Nat) (v : Video)
    (hv : v ∈ result_videos (select_result items durations maxVideos)) :
    60 < v.duration := by
  rw [result_videos_select] at hv
  rcases selectLoop_mem durations maxVideos items [] v hv with h | h
  · simp at h
  · exact h.1

/-- Witness for C1 at a concrete input. -/
theorem output_videos_longform_witness :
    60 < (selectF [("B", 90)] ⟨"B", "Video B", 5⟩).duration :=
  output_videos_longform [⟨"B", "Video B", 5⟩] [("B", 90)] MAX_VIDEOS _ (by decide)

/-- Claim C2: whenever the pipeline writes a result, the history holds at most
`MAX_VIDEOS` (= 3) entries, however many qualify; and once the accumulator is
full (`MAX_VIDEOS + 1` entries), appending further input items leaves the
selection unchanged — the scan has stopped. -/
theorem history_bounded_and_scan_stops (items extra : List RawUploadItem)
    (durations : List (String × Nat)) (r : Result)
    (h : build_result items durations = some r) :
    r.history.length ≤ MAX_VIDEOS ∧
      ((select_videos items durations MAX_VIDEOS).length = MAX_VIDEOS + 1 →
        select_videos (items ++ extra) durations MAX_VIDEOS =
          select_videos items durations MAX_VIDEOS) := by
  constructor
  · have hsel := select_result_some items durations MAX_VIDEOS r h
    have hlen : (select_videos items durations MAX_VIDEOS).length ≤ MAX_VIDEOS + 1 :=
      selectLoop_length durations MAX_VIDEOS items [] (by simp)
    rw [hsel] at hlen
    simpa using hlen
  · intro hfull
    exact selectLoop_append_full durations MAX_VIDEOS items extra [] (by simp) hfull

/-- Witness for C2: five qualifying items, so a sixth would be available;
history still has 3 entries and an appended extra item changes nothing. -/
theorem history_bounded_and_scan_stops_witness :
    (Result.history ⟨selectF [("A", 90), ("B", 90), ("C", 90), ("D", 90), ("E", 90), ("F", 90)] ⟨"A", "a", 6⟩,
      [selectF [("A", 90), ("B", 90), ("C", 90), ("D", 90), ("E", 90), ("F", 90)] ⟨"B", "b", 5⟩,
       selectF [("A", 90), ("B", 90), ("C", 90), ("D", 90), ("E", 90), ("F", 90)] ⟨"C", "c", 4⟩,
       selectF [("A", 90), ("B", 90), ("C", 90), ("D", 90), ("E", 90), ("F", 90)] ⟨"D", "d", 3⟩]⟩).length
      ≤ MAX_VIDEOS ∧
    ((select_videos [⟨"A", "a", 6⟩, ⟨"B", "b", 5⟩, ⟨"C", "c", 4⟩, ⟨"D", "d", 3⟩, ⟨"E", "e", 2⟩]
        [("A", 90), ("B", 90), ("C", 90), ("D", 90), ("E", 90), ("F", 90)] MAX_VIDEOS).length =
        MAX_VIDEOS + 1 →
      select_videos ([⟨"A", "a", 6⟩, ⟨"B", "b", 5⟩, ⟨"C", "c", 4⟩, ⟨"D", "d", 3⟩, ⟨"E", "e", 2⟩] ++
          [⟨"F", "f", 1⟩])
        [("A", 90), ("B", 90), ("C", 90), ("D", 90), ("E", 90), ("F", 90)] MAX_VIDEOS =
      select_videos [⟨"A", "a", 6⟩, ⟨"B", "b", 5⟩, ⟨"C", "c", 4⟩, ⟨"D", "d", 3⟩, ⟨"E", "e", 2⟩]
        [("A", 90), ("B", 90), ("C", 90), ("D", 90), ("E", 90), ("F", 90)] MAX_VIDEOS) :=
  history_bounded_and_scan_stops
    [⟨"A", "a", 6⟩, ⟨"B", "b", 5⟩, ⟨"C", "c", 4⟩, ⟨"D", "d", 3⟩, ⟨"E", "e", 2⟩]
    [⟨"F", "f", 1⟩]
    [("A", 90), ("B", 90), ("C", 90), ("D", 90), ("E", 90), ("F", 90)]
    ⟨selectF [("A", 90), ("B", 90), ("C", 90), ("D", 90), ("E", 90), ("F", 90)] ⟨"A", "a", 6⟩,
      [selectF [("A", 90), ("B", 90), ("C", 90), ("D", 90), ("E", 90), ("F", 90)] ⟨"B", "b", 5⟩,
       selectF [("A", 90), ("B", 90), ("C", 90), ("D", 90), ("E", 90), ("F", 90)] ⟨"C", "c", 4⟩,
       selectF [("A", 90), ("B", 90), ("C", 90), ("D", 90), ("E", 90), ("F", 90)] ⟨"D", "d", 3⟩]⟩
    (by decide)

/-- Claim C3: when the input list is ordered newest first (strictly decreasing
publish times, as distinct ISO-8601 upload timestamps are), the featured
video's publish time is ≥ — indeed strictly greater than — every history
entry's, and the history is sorted strictly by decreasing recency. -/
theorem featured_most_recent_ordering (items : List RawUploadItem)
    (durations : List (String × Nat)) (r : Result)
    (hsorted : items.Pairwise (fun a b => b.publishedAt < a.publishedAt))
    (h : build_result items durations = some r) :
    (∀ v ∈ r.history, v.publishedAt ≤ r.featured.publishedAt) ∧
    (∀ v ∈ r.history, v.publishedAt < r.featured.publishedAt) ∧
    r.history.Pairwise (fun a b => b.publishedAt < a.publishedAt) := by
  have hsel := select_result_some items durations MAX_VIDEOS r h
  obtain ⟨l, h1, h2⟩ := selectLoop_sublist durations MAX_VIDEOS items []
  have hmap : (items.map (selectF durations)).Pairwise
      (fun u v : Video => v.publishedAt < u.publishedAt) := by
    rw [List.pairwise_map]
    exact hsorted
  have hl : (select_videos items durations MAX_VIDEOS).Pairwise
      (fun u v : Video => v.publishedAt < u.publishedAt) := by
    have hv : select_videos items durations MAX_VIDEOS = l := by
      unfold select_videos
      rw [h1]
      simp
    rw [hv]
    exact List.Pairwise.sublist h2 hmap
  rw [hsel, List.pairwise_cons] at hl
  exact ⟨fun v hv => le_of_lt (hl.1 v hv), hl.1, hl.2⟩

/-- Witness for C3 at a concrete strictly newest-first input. -/
theorem featured_most_recent_ordering_witness :
    (∀ v ∈ [mkVideo ⟨"B", "b", 20⟩ 90, mkVideo ⟨"C", "c", 10⟩ 70],
        v.publishedAt ≤ (mkVideo ⟨"A", "a", 30⟩ 90).publishedAt) ∧
    (∀ v ∈ [mkVideo ⟨"B", "b", 20⟩ 90, mkVideo ⟨"C", "c", 10⟩ 70],
        v.publishedAt < (mkVideo ⟨"A", "a", 30⟩ 90).publishedAt) ∧
    ([mkVideo ⟨"B", "b", 20⟩ 90, mkVideo ⟨"C", "c", 10⟩ 70] : List Video).Pairwise
        (fun a b => b.publishedAt < a.publishedAt) :=
  featured_most_recent_ordering
    [⟨"A", "a", 30⟩, ⟨"B", "b", 20⟩, ⟨"C", "c", 10⟩]
    [("A", 90), ("B", 90), ("C", 70)]
    ⟨mkVideo ⟨"A", "a", 30⟩ 90, [mkVideo ⟨"B", "b", 20⟩ 90, mkVideo ⟨"C", "c", 10⟩ 70]⟩
    (by decide) (by decide)

/-- Claim C4: a duration token whose hour/minute/second components are the
digit runs present in it parses to `h*3600 + m*60 + s`; absent components
default to 0 (so the zero-component token `PT` parses to 0); and a token whose
suffix after `PT` starts with a non-digit — so no component can match — parses
to 0 instead of failing. -/
theorem parse_duration_component_formula (ho mo so : Option (List Char))
    (c : Char) (cs : List Char)
    (hh : goodRunB ho = true) (hm : goodRunB mo = true) (hs : goodRunB so = true)
    (hc : pyDigit c = false) :
    parse_duration_seconds (durToken ho mo so) =
      compVal ho * 3600 + compVal mo * 60 + compVal so ∧
    parse_duration_seconds ⟨'P' :: 'T' :: c :: cs⟩ = 0 := by
  constructor
  · rw [durToken, parse_mk_PT]
    exact parse_components_token ho mo so hh hm hs
  · exact parse_PT_malformed c cs hc

/-- Witness for C4: `PT1H30M15S` parses to 5415 and `PTX` parses to 0. -/
theorem parse_duration_component_formula_witness :
    parse_duration_seconds (durToken (some ['1']) (some ['3', '0']) (some ['1', '5'])) =
      5415 ∧
    parse_duration_seconds ⟨'P' :: 'T' :: 'X' :: []⟩ = 0 := by
  have h := parse_duration_component_formula (some ['1']) (some ['3', '0'])
    (some ['1', '5']) 'X' [] (by decide) (by decide) (by decide) (by decide)
  exact ⟨h.1.trans (by decide), h.2⟩

/-- Claim C5: on the spec's four-item newest-first example with
`desiredHistoryLength = 1`, the pipeline yields featured = B and
history = [C]; the short-form items A and D are excluded. -/
theorem end_to_end_example :
    select_result exampleItems exampleDurations 1 =
      some { featured := mkVideo ⟨"B", "Video B", 30⟩ 90,
             history := [mkVideo ⟨"C", "Video C", 20⟩ 120] } ∧
    result_ids (select_result exampleItems exampleDurations 1) = ["B", "C"] :=
  ⟨by decide, by decide⟩

/-- Counterexample to C6 as stated: without a uniqueness hypothesis on the
input, a duplicated qualifying item is selected twice and the output ids
repeat. -/
theorem dup_input_dup_output_ids :
    result_ids (build_result [⟨"X", "Video X", 10⟩, ⟨"X", "Video X", 10⟩]
        [("X", 90)]) = ["X", "X"] ∧
    ¬ (result_ids (build_result [⟨"X", "Video X", 10⟩, ⟨"X", "Video X", 10⟩]
        [("X", 90)])).Nodup :=
  ⟨by decide, by decide⟩

/-- Claim C6 (amended): if the input items' video identifiers are pairwise
distinct, then the identifiers across featured plus history are pairwise
distinct. -/
theorem output_ids_nodup_of_input_nodup (items : List RawUploadItem)
    (durations : List (String × Nat))
    (h : (items.map RawUploadItem.videoId).Nodup) :
    (result_ids (build_result items durations)).Nodup := by
  unfold result_ids build_result
  rw [result_videos_select]
  obtain ⟨l, h1, h2⟩ := selectLoop_sublist durations MAX_VIDEOS items []
  have hv : select_videos items durations MAX_VIDEOS = l := by
    unfold select_videos
    rw [h1]
    simp
  rw [hv]
  have hsub : (l.map Video.id).Sublist ((items.map (selectF durations)).map Video.id) :=
    h2.map Video.id
  have hcomp : (items.map (selectF durations)).map Video.id =
      items.map RawUploadItem.videoId := by
    rw [List.map_map]
    rfl
  rw [hcomp] at hsub
  exact h.sublist hsub

/-- Witness for the amended C6 at a concrete duplicate-free input. -/
theorem output_ids_nodup_of_input_nodup_witness :
    (result_ids (build_result [⟨"A", "a", 2⟩, ⟨"B", "b", 1⟩]
        [("A", 90), ("B", 61)])).Nodup :=
  output_ids_nodup_of_input_nodup [⟨"A", "a", 2⟩, ⟨"B", "b", 1⟩]
    [("A", 90), ("B", 61)] (by decide)

/-- Claim C7: an identifier absent from the duration index is treated as
zero-duration by the caller, and consequently no output video carries it. -/
theorem absent_id_filtered_out (items : List RawUploadItem)
    (durations : List (String × Nat)) (maxVideos : Nat) (i : String)
    (h : durations.lookup i = none) :
    lookupD durations i = 0 ∧
    ∀ v ∈ result_videos (select_result items durations maxVideos), v.id ≠ i := by
  refine ⟨by simp [lookupD, h], ?_⟩
  intro v hv hvi
  rw [result_videos_select] at hv
  rcases selectLoop_mem durations maxVideos items [] v hv with h1 | ⟨hgt, hdur⟩
  · simp at h1
  · rw [hvi, lookupD, h] at hdur
    simp at hdur
    omega

/-- Witness for C7: id `Z` is absent from the index and never in the output. -/
theorem absent_id_filtered_out_witness :
    lookupD [("A", 90)] "Z" = 0 ∧
    ∀ v ∈ result_videos (select_result [⟨"Z", "z", 5⟩, ⟨"A", "a", 4⟩] [("A", 90)]
        MAX_VIDEOS), v.id ≠ "Z" :=
  absent_id_filtered_out [⟨"Z", "z", 5⟩, ⟨"A", "a", 4⟩] [("A", 90)] MAX_VIDEOS "Z"
    (by decide)

/-- Claim C8: when every fetched item is short-form (or the list is empty),
`main` takes the warning path and returns without writing, so any previously
written output survives unchanged. -/
theorem all_short_warns_and_preserves_output (items : List RawUploadItem)
    (durations : List (String × Nat))
    (h : ∀ item ∈ items, lookupD durations item.videoId ≤ 60) :
    main_outcome items durations = RunOutcome.warnedNoVideos ∧
    ∀ prev, output_after prev items durations = prev := by
  have hsel : select_videos items durations MAX_VIDEOS = [] :=
    selectLoop_all_short durations MAX_VIDEOS items h []
  have hbr : build_result items durations = none := by
    unfold build_result select_result
    rw [hsel]
  constructor
  · unfold main_outcome
    rw [hbr]
  · intro prev
    unfold output_after
    rw [hbr]

/-- Witness for C8 at a single short-form item. -/
theorem all_short_warns_and_preserves_output_witness :
    main_outcome [⟨"A", "a", 3⟩] [("A", 30)] = RunOutcome.warnedNoVideos ∧
    ∀ prev, output_after prev [⟨"A", "a", 3⟩] [("A", 30)] = prev :=
  all_short_warns_and_preserves_output [⟨"A", "a", 3⟩] [("A", 30)] (by decide)

/-- Claim C9: the channel lookup fails with `NotFoundError` exactly when the
response holds no item for the channel, and succeeds to a playlist id exactly
when one does. -/
theorem channel_lookup_not_found (resp : ChannelResponse) :
    (resp.items = [] →
      fetch_channel_uploads_playlist resp = Except.error FetchError.notFound) ∧
    ((∃ pid, fetch_channel_uploads_playlist resp = Except.ok pid) ↔
      resp.items ≠ []) := by
  obtain ⟨items⟩ := resp
  cases items with
  | nil =>
    refine ⟨fun _ => rfl, ?_⟩
    constructor
    · rintro ⟨pid, hp⟩
      exact Except.noConfusion hp
    · intro hne
      exact absurd rfl hne
  | cons it rest =>
    refine ⟨fun hc => List.noConfusion hc, ?_⟩
    constructor
    · intro _
      simp
    · intro _
      exact ⟨it.uploads, rfl⟩

/-- Witness for C9: an empty and a nonempty channel response. -/
theorem channel_lookup_not_found_witness :
    fetch_channel_uploads_playlist ⟨[]⟩ = Except.error FetchError.notFound ∧
    ∃ pid, fetch_channel_uploads_playlist ⟨[⟨"UUabc"⟩]⟩ = Except.ok pid :=
  ⟨(channel_lookup_not_found ⟨[]⟩).1 rfl,
   (channel_lookup_not_found ⟨[⟨"UUabc"⟩]⟩).2.mpr (by decide)⟩

/-- Claim C10: the parser is total and `Nat`-valued (hence non-negative); any
string not starting with the lead marker `PT` — including the valid ISO-8601
day-bearing duration `P1DT2H` — parses to 0; and an item all of whose duration
records in the videos response (with Python's last-wins dict, every entry for
its id; with distinct response ids, just its one entry) fail to start with
`PT` is classified short-form and excluded from the output. -/
theorem parse_total_and_non_pt_zero (s : String) (resp : List (String × String))
    (items : List RawUploadItem) (i : String) (v : Video)
    (hs : s.data.take 2 ≠ ['P', 'T'])
    (hresp : ∀ p ∈ resp, p.1 = i → (p.2).data.take 2 ≠ ['P', 'T'])
    (hv : v ∈ result_videos (select_result items (get_video_durations resp)
      MAX_VIDEOS)) :
    0 ≤ parse_duration_seconds s ∧ parse_duration_seconds s = 0 ∧
    parse_duration_seconds "P1DT2H" = 0 ∧ v.id ≠ i := by
  refine ⟨Nat.zero_le _, parse_non_pt s hs, by decide, ?_⟩
  intro hvi
  rw [result_videos_select] at hv
  rcases selectLoop_mem (get_video_durations resp) MAX_VIDEOS items [] v hv with
    h1 | ⟨hgt, hdur⟩
  · simp at h1
  · rw [hvi] at hdur
    rw [lookupD_gvd_zero resp i
      (fun p hp hpi => parse_non_pt p.2 (hresp p hp hpi))] at hdur
    omega

/-- Witness for C10: id `A` carries the day-bearing token and is excluded while
`B` (a two-minute video) is selected. -/
theorem parse_total_and_non_pt_zero_witness :
    0 ≤ parse_duration_seconds "P1DT2H" ∧ parse_duration_seconds "P1DT2H" = 0 ∧
    parse_duration_seconds "P1DT2H" = 0 ∧
    (selectF (get_video_durations [("A", "P1DT2H"), ("B", "PT2M")])
      ⟨"B", "b", 1⟩).id ≠ "A" :=
  parse_total_and_non_pt_zero "P1DT2H" [("A", "P1DT2H"), ("B", "PT2M")]
    [⟨"A", "a", 2⟩, ⟨"B", "b", 1⟩] "A"
    (selectF (get_video_durations [("A", "P1DT2H"), ("B", "PT2M")]) ⟨"B", "b", 1⟩)
    (by decide) (by decide) (by decide)
